import Mathlib

/-!
Verification of the deposit-detection core of the `deposcan` repository.

Shallow embedding conventions:
* JavaScript numbers (balances, amounts) are modelled as rationals (`ℚ`).
* Firestore maps iterated with `for ... in` / `Object.entries` are modelled as
  association lists `List (String × ℚ)` in iteration order.
* Fallible RPC calls are modelled as `Option`-valued oracles passed in as
  arguments (`none` = the call threw / returned null).
-/

namespace Deposcan

/-! ## Balance snapshot engine (scheduled balance checker)

Embeds `updateUserBalances` / `trackBalanceIncreaseAsDeposit` and the
per-address part of `processBatch` from the snapshot-engine source file.
-/

/-- `const threshold = 0.000001;` — the noise threshold used by
`updateUserBalances` for detecting real balance changes. -/
def threshold : ℚ := 1 / 1000000

/-- `minReportBalance: 0.0001` — configured minimum native balance below which
detailed (token) checks are skipped by `processBatch`. -/
def minReportBalance : ℚ := 1 / 10000

/-- The deposit entry written to the `processedDeposits` collection by
`trackBalanceIncreaseAsDeposit`.  The spec's `detectionMethod = balance-diff`
corresponds to the source's `detectedBy: 'balance-scanner'`,
`type: 'balance-increase'` and `txHash: null`. -/
structure DepositRecord where
  userId : String
  chain : String
  token : String
  amount : ℚ
  previousBalance : ℚ
  newBalance : ℚ
  txHash : Option String
  detectedBy : String
  entryType : String
  deriving Repr, DecidableEq

/-- One iteration of the `for (const [token, newBalance] of Object.entries(balances))`
loop body of `updateUserBalances`: returns `none` when the fetched balance is
skipped or unchanged, otherwise the `balances.<key>` update entry together with
the deposit record tracked when the balance increased by more than the
threshold.  `currentBalances` is the user's stored balances map; the
case-insensitive key lookup mirrors the `key.toUpperCase() === tokenSymbol`
scan of the source. -/
def processTokenEntry (currentBalances : List (String × ℚ)) (userId chain : String)
    (entry : String × ℚ) : Option ((String × ℚ) × Option DepositRecord) :=
  let token := entry.1
  let newBalance := entry.2
  if newBalance ≤ threshold then
    none
  else
    let tokenSymbol := token.toUpper
    let found := currentBalances.find? (fun kv => kv.1.toUpper = tokenSymbol)
    let currentBalance : ℚ := (found.map Prod.snd).getD 0
    let balanceKey : String := (found.map Prod.fst).getD tokenSymbol
    let balanceDiff := newBalance - currentBalance
    if threshold < |balanceDiff| then
      some ((balanceKey, newBalance),
        if threshold < balanceDiff then
          some ⟨userId, chain, balanceKey, balanceDiff, currentBalance, newBalance,
                none, "balance-scanner", "balance-increase"⟩
        else
          none)
    else
      none

/-- `updateUserBalances(userId, balances, chain, userEmail)` restricted to its
observable effect: the Firestore `updatedBalances` update entries (first
component) and the deposit records tracked via `trackBalanceIncreaseAsDeposit`
(second component).  The loop reads `currentBalances` from the document fetched
once at entry; the single `userDocRef.update` happens after the loop. -/
def updateUserBalances (userId : String) (balances : List (String × ℚ)) (chain : String)
    (currentBalances : List (String × ℚ)) : List (String × ℚ) × List DepositRecord :=
  let processed := balances.filterMap (processTokenEntry currentBalances userId chain)
  (processed.map Prod.fst, processed.filterMap (fun p => p.2))

/-- The stored balance for a token: the value found by the case-insensitive key
scan of `updateUserBalances`, `0` when absent (`parseFloat(...) || 0`). -/
def storedBalanceFor (currentBalances : List (String × ℚ)) (token : String) : ℚ :=
  ((currentBalances.find? (fun kv => kv.1.toUpper = token.toUpper)).map Prod.snd).getD 0

/-- The key under which the token's balance is stored: the existing
case-variant key when present, the uppercased symbol otherwise. -/
def storedKeyFor (currentBalances : List (String × ℚ)) (token : String) : String :=
  ((currentBalances.find? (fun kv => kv.1.toUpper = token.toUpper)).map Prod.fst).getD token.toUpper

end Deposcan

namespace Deposcan

/-! ## Real-time monitor (deposit monitor source file)

Embeds `monitorEthereumBlocks`, `monitorSolanaTransactions`,
`saveDepositToFirebase`, `getNextRpcUrl` and `initializeWeb3`.
-/

/-- `minValueETH: 0.000001` — minimum native value for a transaction to be
logged as a deposit. -/
def minValueETH : ℚ := 1 / 1000000

/-- `minValueSOL: 0.000001` — minimum SOL increase for a Solana deposit. -/
def minValueSOL : ℚ := 1 / 1000000

/-- An Ethereum transaction as returned inside a block by
`web3.eth.getBlock(blockNum, true)`; `toAddr = none` models a contract
creation (`tx.to` null). -/
structure EthTx where
  hash : String
  fromAddr : String
  toAddr : Option String
  value : ℚ
  deriving Repr, DecidableEq

/-- Entry of `addressToUserMap`. -/
structure UserInfo where
  userId : String
  chain : String
  deriving Repr, DecidableEq

/-- A record pushed to `transactionHistory` (and mirrored to Firebase via
`saveDepositToFirebase`).  `value` is the source's `valueETH`/`valueSOL`;
`blockNumber` the block number or slot. -/
structure TxRecord where
  hash : String
  fromAddr : String
  toAddr : String
  value : ℚ
  blockNumber : ℕ
  userId : String
  chain : String
  deriving Repr, DecidableEq

/-- State threaded through the monitor loops: `transactionHistory` plus the
list of records handed to `saveDepositToFirebase` (the persisted ledger
writes), in order. -/
abbrev MonitorSt := List TxRecord × List TxRecord

/-- One iteration of the transaction loop inside `monitorEthereumBlocks`:
the relevance filter (`tx.to && monitoredAddresses.includes(tx.to.toLowerCase())`),
the dust filter (`valueETH >= config.minValueETH`), and the history dedup
check (`!transactionHistory.some(t => t.hash === tx.hash)`) guarding the push
to `transactionHistory` and the `saveDepositToFirebase` call. -/
def processTx (monitored : List String) (userMap : String → Option UserInfo)
    (blockNum : ℕ) (st : MonitorSt) (tx : EthTx) : MonitorSt :=
  match tx.toAddr with
  | none => st
  | some toA =>
    if monitored.contains toA.toLower then
      if minValueETH ≤ tx.value then
        if st.1.any (fun t => t.hash = tx.hash) then st
        else
          let u := (userMap toA.toLower).getD ⟨"Unknown", "Unknown"⟩
          let txRecord : TxRecord :=
            ⟨tx.hash, tx.fromAddr, toA, tx.value, blockNum, u.userId, u.chain⟩
          (st.1 ++ [txRecord], st.2 ++ [txRecord])
      else st
    else st

/-- Processing one block of the `for (let blockNum = ...)` range:
`fetch blockNum = none` models `web3.eth.getBlock` throwing (caught by the
inner `catch (blockError) ... continue`) or returning a block without
transactions; otherwise every transaction of the block is processed in
order. -/
def processBlock (monitored : List String) (userMap : String → Option UserInfo)
    (fetch : ℕ → Option (List EthTx)) (st : MonitorSt) (blockNum : ℕ) : MonitorSt :=
  match fetch blockNum with
  | none => st
  | some txs => txs.foldl (processTx monitored userMap blockNum) st

/-- Result of one successful `monitorEthereumBlocks` pass (one in which
`web3.eth.getBlockNumber()` returned `current`). -/
structure PassResult where
  cursor : ℕ
  history : List TxRecord
  saves : List TxRecord
  fetched : List ℕ
  deriving Repr, DecidableEq

/-- One `monitorEthereumBlocks` pass: when the cursor `latest` is `0` it is
initialized to `current` and nothing else happens; otherwise blocks
`latest+1 .. current` are fetched and processed in order and the cursor is
set to `current` (`latestBlockNumber = currentBlockNumber` runs
unconditionally after the loop).  `fetched` records every block number on
which `getBlock` was attempted. -/
def monitorEthereumPass (monitored : List String) (userMap : String → Option UserInfo)
    (fetch : ℕ → Option (List EthTx)) (latest current : ℕ)
    (history : List TxRecord) : PassResult :=
  if latest = 0 then
    ⟨current, history, [], []⟩
  else
    let blocks := List.range' (latest + 1) (current - latest)
    let st := blocks.foldl (processBlock monitored userMap fetch) (history, [])
    ⟨current, st.1, st.2, blocks⟩

/-- A signature entry returned by `getSignaturesForAddress`. -/
structure SigInfo where
  signature : String
  slot : ℕ
  blockTime : Int
  deriving Repr, DecidableEq

/-- `tx.meta` of a fetched Solana transaction: the pre/post lamport balances
indexed like the account list. -/
structure SolTxMeta where
  preBalances : List Int
  postBalances : List Int
  deriving Repr, DecidableEq

/-- A Solana transaction as fetched by `getTransaction`:
`tx.transaction.message.accountKeys` (stringified) and `tx.meta`
(`none` models `!tx || !tx.meta`). -/
structure SolTx where
  accountKeys : List String
  meta : Option SolTxMeta
  deriving Repr, DecidableEq

/-- JavaScript array indexing `arr[key]` with a string key, as performed by
the `findIndex` callback of the counterparty search
(`tx.meta.postBalances[key]` where `key` is an account key, not an index):
a decimal-numeral key indexes the array (out of range gives `undefined` =
`none`), anything else yields `undefined`.  Base58 account keys contain no
`0` character, so they are either non-numeric (`undefined`) or leading-zero-
free numerals, on which this model agrees with JavaScript's canonical-index
rule. -/
def jsArrayGet (l : List Int) (key : String) : Option Int :=
  if key.data ≠ [] ∧ key.data.all (fun c => c.isDigit) then
    l.get? (key.data.foldl (fun n c => n * 10 + (c.toNat - 48)) 0)
  else none

/-- JavaScript `<` on possibly-`undefined` numbers: any comparison involving
`undefined` is false. -/
def jsUndefLt (a b : Option Int) : Bool :=
  match a, b with
  | some x, some y => decide (x < y)
  | _, _ => false

/-- The `fromIndex` computation of `monitorSolanaTransactions`:
`accountKeys.findIndex(key => tx.meta.postBalances[key] < tx.meta.preBalances[key])`
— note the callback indexes the balance arrays by the account key itself
rather than by its position. -/
def solanaFromIndex (accountKeys : List String) (pre post : List Int) : Option ℕ :=
  accountKeys.findIdx? (fun key => jsUndefLt (jsArrayGet post key) (jsArrayGet pre key))

/-- 1 SOL = 1,000,000,000 lamports. -/
def lamportsPerSol : ℚ := 1000000000

/-- `fromIndex >= 0 ? accountKeys[fromIndex].toString() : 'Unknown'`. -/
def solanaFromAddress (accountKeys : List String) (pre post : List Int) : String :=
  match solanaFromIndex accountKeys pre post with
  | some i => accountKeys.getD i "Unknown"
  | none => "Unknown"

/-- Processing of one signature inside `monitorSolanaTransactions`: the
history dedup skip, the `getTransaction` fetch (`none` = null/throw), the
account-index lookup with bounds check, the lamport delta, the minimum-value
filter, the (buggy) counterparty inference, and the push to
`transactionHistory` plus the `saveDepositToFirebase` call. -/
def solanaProcessSig (address : String) (userMap : String → Option UserInfo)
    (getTx : String → Option SolTx) (st : MonitorSt) (sigInfo : SigInfo) : MonitorSt :=
  if st.1.any (fun t => t.hash = sigInfo.signature) then st
  else
    match getTx sigInfo.signature with
    | none => st
    | some tx =>
      match tx.meta with
      | none => st
      | some meta =>
        match tx.accountKeys.findIdx? (fun key => decide (key = address)) with
        | none => st
        | some accountIndex =>
          if accountIndex < meta.postBalances.length ∧
              accountIndex < meta.preBalances.length then
            let preBalance := meta.preBalances.getD accountIndex 0
            let postBalance := meta.postBalances.getD accountIndex 0
            let valueSOL : ℚ := ((postBalance - preBalance : ℤ) : ℚ) / lamportsPerSol
            if minValueSOL < valueSOL then
              let u := (userMap address).getD ⟨"Unknown", "Solana"⟩
              let fromAddress :=
                solanaFromAddress tx.accountKeys meta.preBalances meta.postBalances
              let txRecord : TxRecord :=
                ⟨sigInfo.signature, fromAddress, address, valueSOL, sigInfo.slot,
                  u.userId, "Solana"⟩
              (st.1 ++ [txRecord], st.2 ++ [txRecord])
            else st
          else st

/-- The per-address signature loop of `monitorSolanaTransactions`. -/
def monitorSolanaAddress (address : String) (userMap : String → Option UserInfo)
    (getTx : String → Option SolTx) (sigs : List SigInfo) (st : MonitorSt) : MonitorSt :=
  sigs.foldl (solanaProcessSig address userMap getTx) st

/-- Number of records with transaction hash `H` in the persisted history. -/
def countHash (history : List TxRecord) (H : String) : ℕ :=
  history.countP (fun t => decide (t.hash = H))

end Deposcan

namespace Deposcan

/-! ## Remaining definitions: counterparty comparison, ledger-write outcomes,
connection state, per-address snapshot flow -/

/-- Following the spec's words, for comparison with `solanaFromIndex`: the
position of the first account in the transaction's account list whose balance
decreased between the pre- and post-balance arrays. -/
def specCounterpartyIndex (pre post : List Int) : Option ℕ :=
  (post.zip pre).findIdx? (fun pp => decide (pp.1 < pp.2))

/-- Concrete Solana transaction for C7: account 0 sent 2 SOL to account 1
(balances in lamports). -/
def c7tx : SolTx :=
  ⟨["SenderA", "RecvB"], some ⟨[5000000000, 0], [3000000000, 2000000000]⟩⟩

/-- Concrete signature entry for C7. -/
def c7sig : SigInfo := ⟨"Sig1", 7, 0⟩

/-- Reachable post-states of `saveDepositToFirebase` processing one accepted
candidate: the source performs two separately awaited writes — the
`processedDeposits.add` append first, then the `updateUserBalance`
read-modify-write `balance += amount` — inside a `try` whose `catch` only
logs, with no rollback.  Execution may stop before the first write, between
the two writes (the second `await` throws or the process dies), or complete
both. -/
inductive SaveOutcome (ledger : List TxRecord) (balance : ℚ) (c : TxRecord) :
    List TxRecord → ℚ → Prop where
  | stopBeforeAdd : SaveOutcome ledger balance c ledger balance
  | stopAfterAdd : SaveOutcome ledger balance c (ledger ++ [c]) balance
  | completed : SaveOutcome ledger balance c (ledger ++ [c]) (balance + c.value)

/-- Concrete accepted candidate for C4. -/
def c4rec : TxRecord := ⟨"H4", "0xSender", "0xRecv", 1, 12, "user1", "Ethereum"⟩

/-- Reachable post-states of the balance-diff path persisting one accepted
candidate (the singleton `updateUserBalances` call whose `balanceDiff`
exceeded the threshold): the `processedDeposits.add` inside
`trackBalanceIncreaseAsDeposit` is awaited first, but that function catches
its own errors and returns `null`, so the loop continues either way; the
balance write `userDocRef.update` — which sets the stored balance to
`newBalance` — is awaited after the loop, and the outer catch only logs, with
no rollback.  Execution may stop before both writes, the add may fail with
the update still running, the update may fail after a successful add, or both
may complete. -/
inductive SnapshotSaveOutcome (ledger : List DepositRecord) (balance : ℚ)
    (d : DepositRecord) : List DepositRecord → ℚ → Prop where
  | stopBeforeAll : SnapshotSaveOutcome ledger balance d ledger balance
  | addFailedUpdateRan : SnapshotSaveOutcome ledger balance d ledger d.newBalance
  | stopAfterAdd : SnapshotSaveOutcome ledger balance d (ledger ++ [d]) balance
  | completed : SnapshotSaveOutcome ledger balance d (ledger ++ [d]) d.newBalance

/-- Concrete accepted balance-diff candidate for C4: stored balance `0`,
fetched balance `1`. -/
def c4drec : DepositRecord :=
  ⟨"user1", "Ethereum", "ETH", 1, 0, 1, none, "balance-scanner", "balance-increase"⟩

/-- Monitored-address list for the C6 counterexample. -/
def c6monitored : List String := ["0xabc".toLower]

/-- The qualifying transaction contained only in block `5` for the C6
counterexample. -/
def c6tx : EthTx := ⟨"HashN", "0xSender", some "0xabc", 1⟩

/-- Fetch oracle for the third pass of the C6 counterexample: block `5` now
succeeds and contains the qualifying transaction. -/
def c6fetch3 : ℕ → Option (List EthTx) :=
  fun n => if n = 5 then some [c6tx] else some []

/-- The module-level connection state of the monitor: `currentRpcUrlIndex`,
`retryCount` and `isConnected`. -/
structure RpcState where
  currentRpcUrlIndex : ℕ
  retryCount : ℕ
  isConnected : Bool
  deriving Repr, DecidableEq

/-- `getNextRpcUrl()`: advances the rotation pointer modulo the endpoint list
and returns the new URL. -/
def getNextRpcUrl (allRpcUrls : List String) (s : RpcState) : RpcState × String :=
  let idx := (s.currentRpcUrlIndex + 1) % allRpcUrls.length
  ({ s with currentRpcUrlIndex := idx }, allRpcUrls.getD idx "")

/-- `initializeWeb3()`: connect to `allRpcUrls[currentRpcUrlIndex]` and run
the liveness probe `web3.eth.getBlockNumber()`; `probeSucceeds` is the
probe's outcome.  On success the source sets `isConnected = true` and
`retryCount = 0`; on failure `isConnected = false`.  No statement of the
function touches `currentRpcUrlIndex`. -/
def initializeWeb3 (probeSucceeds : Bool) (s : RpcState) : RpcState × Bool :=
  if probeSucceeds then
    ({ s with isConnected := true, retryCount := 0 }, true)
  else
    ({ s with isConnected := false }, false)

/-- The per-address flow of the account-chain (`Ethereum`/`BSC`) branches of
`processBatch` in both snapshot source files: the native balance is pushed to
the user-balance updater when positive, and the popular-token balances are
fetched — and pushed when positive — only when the native balance is at least
`minReportBalance`.  `tokenFetch` is the oracle of token balances the RPC
would return.  Returns the `(token, balance)` singleton updater calls in
order. -/
def snapshotCallsAcct (nativeSymbol : String) (nativeBalance : ℚ)
    (tokenFetch : List (String × ℚ)) : List (String × ℚ) :=
  (if 0 < nativeBalance then [(nativeSymbol, nativeBalance)] else []) ++
  (if minReportBalance ≤ nativeBalance then tokenFetch.filter (fun tb => 0 < tb.2)
   else [])

/-- The Solana branch of `processBatch`: SPL token balances are fetched only
when the SOL balance is at least `minReportBalance`; every fetched entry is
pushed. -/
def snapshotCallsSol (nativeBalance : ℚ) (splFetch : List (String × ℚ)) :
    List (String × ℚ) :=
  (if 0 < nativeBalance then [("SOL", nativeBalance)] else []) ++
  (if minReportBalance ≤ nativeBalance then splFetch else [])

/-- The deposit records produced for one address in one snapshot pass: each
updater call is `updateUserBalances` on the singleton map of that token. -/
def snapshotDeposits (userId chain : String) (currentBalances : List (String × ℚ))
    (calls : List (String × ℚ)) : List DepositRecord :=
  calls.flatMap (fun c => (updateUserBalances userId [c] chain currentBalances).2)

/-- Helper fetch oracle for the C6 witness: block `5` fails, every other block
returns an empty transaction list. -/
def witnessFetch : ℕ → Option (List EthTx) :=
  fun n => if n = 5 then none else some []


end Deposcan

namespace Deposcan

/-! ### Snapshot-engine theorems -/

/-- **C1.**  For an address/token pair processed in a snapshot pass
(`processBatch` invokes `updateUserBalances` with the singleton map of that
token's freshly fetched balance): when the fetched balance `v` exceeds the
stored balance by strictly more than the noise threshold `0.000001`, exactly
one deposit record is produced, with `previousBalance` the stored balance,
`newBalance = v`, `amount` their difference, a null transaction hash and the
balance-scanner detection marker; when the increase is at most the threshold,
zero records are produced.  The stored balance is nonnegative (Firestore
balances are amounts). -/
theorem balance_diff_emits_exactly_one_record (userId chain token : String)
    (currentBalances : List (String × ℚ)) (v : ℚ)
    (hstored : 0 ≤ storedBalanceFor currentBalances token) :
    (threshold < v - storedBalanceFor currentBalances token →
      (updateUserBalances userId [(token, v)] chain currentBalances).2 =
        [⟨userId, chain, storedKeyFor currentBalances token,
          v - storedBalanceFor currentBalances token,
          storedBalanceFor currentBalances token, v,
          none, "balance-scanner", "balance-increase"⟩]) ∧
    (v - storedBalanceFor currentBalances token ≤ threshold →
      (updateUserBalances userId [(token, v)] chain currentBalances).2 = []) := by
  have hthr : (0:ℚ) < threshold := by norm_num [threshold]
  set s := storedBalanceFor currentBalances token with hs
  constructor
  · intro hgt
    have hv : ¬ v ≤ threshold := by push_neg; nlinarith
    have hpos : (0:ℚ) < v - s := by linarith
    have habs : threshold < |v - s| := by
      rw [abs_of_pos hpos]; exact hgt
    simp only [storedBalanceFor] at hs
    simp [updateUserBalances, processTokenEntry, storedKeyFor, ← hs, hv, habs, hgt]
  · intro hle
    by_cases hv : v ≤ threshold
    · simp [updateUserBalances, processTokenEntry, hv]
    · have hng : ¬ threshold < v - s := by push_neg; exact hle
      by_cases habs : threshold < |v - s|
      · simp only [storedBalanceFor] at hs
        simp [updateUserBalances, processTokenEntry, ← hs, hv, habs, hng]
      · simp only [storedBalanceFor] at hs
        simp [updateUserBalances, processTokenEntry, ← hs, hv, habs]

/-- Witness for C1 (spec Scenario A shape): stored ETH balance `0`, fetched
balance `3/2`; one record with amount `3/2` is produced, and an increase equal
to the threshold produces nothing. -/
theorem balance_diff_emits_exactly_one_record_witness :
    (0 ≤ storedBalanceFor [] "ETH" ∧ threshold < (3/2 : ℚ) - storedBalanceFor [] "ETH") ∧
    (updateUserBalances "u1" [("ETH", (3/2 : ℚ))] "Ethereum" []).2 =
      [⟨"u1", "Ethereum", storedKeyFor [] "ETH", (3/2 : ℚ) - storedBalanceFor [] "ETH",
        storedBalanceFor [] "ETH", (3/2 : ℚ),
        none, "balance-scanner", "balance-increase"⟩] :=
  ⟨⟨by norm_num [storedBalanceFor], by norm_num [storedBalanceFor, threshold]⟩,
    (balance_diff_emits_exactly_one_record "u1" "Ethereum" "ETH" [] (3/2)
      (by norm_num [storedBalanceFor])).1
      (by norm_num [storedBalanceFor, threshold])⟩

/-- **C10.**  A freshly fetched balance that is at most the threshold
`0.000001` is skipped entirely by `updateUserBalances`: no balance update entry
and no deposit record, even when the stored balance differs from the fetched
value. -/
theorem tiny_fetched_balance_is_noop (userId chain token : String)
    (currentBalances : List (String × ℚ)) (v : ℚ) (h : v ≤ threshold) :
    updateUserBalances userId [(token, v)] chain currentBalances = ([], []) := by
  simp only [updateUserBalances, processTokenEntry, List.filterMap_cons]
  rw [if_pos h]
  simp

/-- Witness for C10: fetched balance `0` for a token whose stored balance is
`5`; the stored balance stays (no update entry) and no record is emitted. -/
theorem tiny_fetched_balance_is_noop_witness :
    ((0:ℚ) ≤ threshold) ∧
    updateUserBalances "u1" [("ETH", (0:ℚ))] "Ethereum" [("ETH", 5)] = ([], []) :=
  ⟨by norm_num [threshold],
    tiny_fetched_balance_is_noop "u1" "Ethereum" "ETH" [("ETH", 5)] 0
      (by norm_num [threshold])⟩

/-! ### Block-scanner theorems -/

/-- **C5.**  On the first pass for the account chain, when the cursor is unset
(`latestBlockNumber === 0`), the pass initializes the cursor to the chain's
reported current height, emits no deposit records (history unchanged, no
Firebase saves) and fetches no blocks. -/
theorem first_pass_initializes_cursor_without_backfill
    (monitored : List String) (userMap : String → Option UserInfo)
    (fetch : ℕ → Option (List EthTx)) (current : ℕ) (history : List TxRecord) :
    monitorEthereumPass monitored userMap fetch 0 current history =
      ⟨current, history, [], []⟩ := by
  simp [monitorEthereumPass]

/-- **C3 counterexample.**  The cursor can decrease between passes: with the
cursor at `100`, a pass in which the RPC layer reports height `90` (as a
lagging endpoint can after failover) sets the cursor to `90 < 100`; the claim
that the cursor never decreases for every sequence of reported heights is
false. -/
theorem cursor_decreases_on_lagging_height :
    (monitorEthereumPass [] (fun _ => none) (fun _ => none) 100 90 []).cursor = 90 ∧
    ¬ 100 ≤ (monitorEthereumPass [] (fun _ => none) (fun _ => none) 100 90 []).cursor := by
  constructor
  · rfl
  · intro h
    simp [monitorEthereumPass, List.range'] at h

/-- **C3 amended.**  At the end of every successful pass the cursor equals
(hence is at most) the height reported during that pass; consequently the
cursor never decreases provided the reported height is at least the current
cursor — which can fail after failover to a lagging endpoint. -/
theorem cursor_monotone_given_nondecreasing_heights
    (monitored : List String) (userMap : String → Option UserInfo)
    (fetch : ℕ → Option (List EthTx)) (latest current : ℕ) (history : List TxRecord)
    (h : latest ≤ current) :
    latest ≤ (monitorEthereumPass monitored userMap fetch latest current history).cursor ∧
    (monitorEthereumPass monitored userMap fetch latest current history).cursor ≤ current := by
  unfold monitorEthereumPass
  by_cases h0 : latest = 0 <;> simp [h0, h]

/-- Witness for the amended C3: cursor `5`, reported height `8`. -/
theorem cursor_monotone_given_nondecreasing_heights_witness :
    (5 ≤ 8) ∧
    5 ≤ (monitorEthereumPass [] (fun _ => none) (fun _ => none) 5 8 []).cursor ∧
    (monitorEthereumPass [] (fun _ => none) (fun _ => none) 5 8 []).cursor ≤ 8 :=
  ⟨by decide,
    cursor_monotone_given_nondecreasing_heights [] (fun _ => none) (fun _ => none) 5 8 []
      (by decide)⟩

/-- Every record in the history after `processTx` was already there or carries
the processed block's number. -/
lemma mem_processTx (monitored : List String) (userMap : String → Option UserInfo)
    (blockNum : ℕ) (st : MonitorSt) (tx : EthTx) (r : TxRecord)
    (h : r ∈ (processTx monitored userMap blockNum st tx).1) :
    r ∈ st.1 ∨ r.blockNumber = blockNum := by
  unfold processTx at h
  split at h
  · exact Or.inl h
  · split at h
    · split at h
      · split at h
        · exact Or.inl h
        · rcases List.mem_append.1 h with h1 | h1
          · exact Or.inl h1
          · simp only [List.mem_singleton] at h1
            subst h1
            exact Or.inr rfl
      · exact Or.inl h
    · exact Or.inl h

/-- Lifted to the fold over a block's transaction list. -/
lemma mem_foldl_processTx (monitored : List String) (userMap : String → Option UserInfo)
    (blockNum : ℕ) (txs : List EthTx) :
    ∀ (st : MonitorSt) (r : TxRecord),
      r ∈ (txs.foldl (processTx monitored userMap blockNum) st).1 →
      r ∈ st.1 ∨ r.blockNumber = blockNum := by
  induction txs with
  | nil => intro st r h; exact Or.inl h
  | cons tx txs ih =>
    intro st r h
    rcases ih (processTx monitored userMap blockNum st tx) r h with h1 | h1
    · exact mem_processTx monitored userMap blockNum st tx r h1
    · exact Or.inr h1

/-- Every record in the history after `processBlock` was already there or
carries the processed block's number. -/
lemma mem_processBlock (monitored : List String) (userMap : String → Option UserInfo)
    (fetch : ℕ → Option (List EthTx)) (st : MonitorSt) (blockNum : ℕ) (r : TxRecord)
    (h : r ∈ (processBlock monitored userMap fetch st blockNum).1) :
    r ∈ st.1 ∨ r.blockNumber = blockNum := by
  unfold processBlock at h
  rcases hf : fetch blockNum with _ | txs
  · rw [hf] at h; exact Or.inl h
  · rw [hf] at h; exact mem_foldl_processTx monitored userMap blockNum txs st r h

/-- Every record in the history after folding over a block-number list was
already there or carries one of the processed block numbers. -/
lemma mem_foldl_processBlock (monitored : List String) (userMap : String → Option UserInfo)
    (fetch : ℕ → Option (List EthTx)) :
    ∀ (l : List ℕ) (st : MonitorSt) (r : TxRecord),
      r ∈ (l.foldl (processBlock monitored userMap fetch) st).1 →
      r ∈ st.1 ∨ r.blockNumber ∈ l := by
  intro l
  induction l with
  | nil => intro st r h; exact Or.inl h
  | cons n l ih =>
    intro st r h
    rcases ih (processBlock monitored userMap fetch st n) r h with h1 | h1
    · rcases mem_processBlock monitored userMap fetch st n r h1 with h2 | h2
      · exact Or.inl h2
      · exact Or.inr (by simp [h2])
    · exact Or.inr (List.mem_cons_of_mem n h1)

/-- A block whose fetch fails contributes nothing to the monitor state. -/
lemma processBlock_of_fetch_none (monitored : List String)
    (userMap : String → Option UserInfo) (fetch : ℕ → Option (List EthTx))
    (st : MonitorSt) (blockNum : ℕ) (h : fetch blockNum = none) :
    processBlock monitored userMap fetch st blockNum = st := by
  unfold processBlock
  rw [h]

/-- Folding over a block list where the step at `N` is a no-op equals folding
over the list with `N` removed. -/
lemma foldl_filter_of_fetch_none (monitored : List String)
    (userMap : String → Option UserInfo) (fetch : ℕ → Option (List EthTx))
    (N : ℕ) (h : fetch N = none) :
    ∀ (l : List ℕ) (st : MonitorSt),
      l.foldl (processBlock monitored userMap fetch) st =
        (l.filter (fun n => n ≠ N)).foldl (processBlock monitored userMap fetch) st := by
  intro l
  induction l with
  | nil => intro st; rfl
  | cons n l ih =>
    intro st
    by_cases hn : n = N
    · subst hn
      simp only [List.foldl_cons, List.filter_cons, decide_not]
      rw [processBlock_of_fetch_none monitored userMap fetch st n h]
      simp [ih]
    · simp only [List.foldl_cons, List.filter_cons, decide_not]
      rw [if_pos (by simp [hn])]
      simp [ih]

/-- **C6 amended.**  When the fetch of block `N` fails during a pass
(`latest < N ≤ current`, cursor set): the pass still attempts every block of
the range (`fetched` is the full range, so it continues with `N+1` rather
than aborting); its outcome equals that of processing the range with `N`
removed; the cursor still advances to `current ≥ N`; no record from block `N`
is added in this pass; and any later pass whose starting cursor is still at
least `N` never fetches block `N` again and never adds a record from block
`N`.  (The cursor proviso is necessary: if the cursor regresses below `N`
after failover to a lagging endpoint, a later pass refetches `N` — see the
counterexample.) -/
theorem failed_block_is_skipped_and_permanently_missed
    (monitored : List String) (userMap : String → Option UserInfo)
    (fetch : ℕ → Option (List EthTx)) (latest N current : ℕ) (history : List TxRecord)
    (h0 : latest ≠ 0) (_hN1 : latest < N) (hN2 : N ≤ current) (hfail : fetch N = none) :
    ((monitorEthereumPass monitored userMap fetch latest current history).cursor = current ∧
      N ≤ (monitorEthereumPass monitored userMap fetch latest current history).cursor) ∧
    (monitorEthereumPass monitored userMap fetch latest current history).fetched =
      List.range' (latest + 1) (current - latest) ∧
    (monitorEthereumPass monitored userMap fetch latest current history).history =
      (((List.range' (latest + 1) (current - latest)).filter (fun n => n ≠ N)).foldl
        (processBlock monitored userMap fetch) (history, [])).1 ∧
    (∀ r ∈ (monitorEthereumPass monitored userMap fetch latest current history).history,
      r ∈ history ∨ r.blockNumber ≠ N) ∧
    (∀ (fetchLater : ℕ → Option (List EthTx)) (latestLater currentLater : ℕ)
        (historyLater : List TxRecord), N ≤ latestLater →
      N ∉ (monitorEthereumPass monitored userMap fetchLater latestLater currentLater
            historyLater).fetched ∧
      ∀ r ∈ (monitorEthereumPass monitored userMap fetchLater latestLater currentLater
            historyLater).history,
        r ∈ historyLater ∨ r.blockNumber ≠ N) := by
  refine ⟨⟨?_, ?_⟩, ?_, ?_, ?_, ?_⟩
  · simp [monitorEthereumPass, h0]
  · simp [monitorEthereumPass, h0]
    exact hN2
  · simp [monitorEthereumPass, h0]
  · simp only [monitorEthereumPass, if_neg h0]
    rw [foldl_filter_of_fetch_none monitored userMap fetch N hfail]
  · intro r hr
    simp only [monitorEthereumPass, if_neg h0] at hr
    rw [foldl_filter_of_fetch_none monitored userMap fetch N hfail] at hr
    rcases mem_foldl_processBlock monitored userMap fetch _ (history, []) r hr with h1 | h1
    · exact Or.inl h1
    · simp only [List.mem_filter, decide_not, Bool.not_eq_eq_eq_not, Bool.not_true,
        decide_eq_false_iff_not] at h1
      exact Or.inr h1.2
  · intro fetchLater latestLater currentLater historyLater hlat
    by_cases hz : latestLater = 0
    · subst hz
      constructor
      · simp [monitorEthereumPass]
      · intro r hr
        simp only [monitorEthereumPass, if_pos rfl] at hr
        exact Or.inl hr
    · constructor
      · simp only [monitorEthereumPass, if_neg hz, List.mem_range'_1]
        intro hmem
        omega
      · intro r hr
        simp only [monitorEthereumPass, if_neg hz] at hr
        rcases mem_foldl_processBlock monitored userMap fetchLater _ (historyLater, []) r hr
          with h1 | h1
        · exact Or.inl h1
        · simp only [List.mem_range'_1] at h1
          exact Or.inr (by omega)

/-- Witness for C6: cursor `4`, failing block `5`, reported height `6` — the
pass still ends with cursor `6`. -/
theorem failed_block_is_skipped_witness :
    ((4 : ℕ) ≠ 0 ∧ 4 < 5 ∧ 5 ≤ 6 ∧ witnessFetch 5 = none) ∧
    (monitorEthereumPass [] (fun _ => none) witnessFetch 4 6 []).cursor = 6 :=
  ⟨⟨by decide, by decide, by decide, rfl⟩,
    (failed_block_is_skipped_and_permanently_missed [] (fun _ => none) witnessFetch 4 5 6 []
      (by decide) (by decide) (by decide) rfl).1.1⟩

/-- **C6 counterexample.**  "Never recorded in any later pass" fails once the
cursor regresses (the C3 behaviour): pass 1 (cursor `4`, height `6`) fails to
fetch block `5` and records nothing; pass 2 reports the lagging height `4`,
setting the cursor back to `4 < 5`; pass 3 (cursor `4`, height `6`) refetches
block `5`, whose fetch now succeeds, and records the qualifying deposit of
block `5` after all. -/
theorem missed_block_recorded_after_cursor_regression :
    (witnessFetch 5 = none ∧
      (monitorEthereumPass c6monitored (fun _ => none) witnessFetch 4 6 []).history = [] ∧
      (monitorEthereumPass c6monitored (fun _ => none) witnessFetch 4 6 []).cursor = 6) ∧
    (monitorEthereumPass c6monitored (fun _ => none) (fun _ => some []) 6 4 []).cursor
      = 4 ∧
    (monitorEthereumPass c6monitored (fun _ => none) c6fetch3 4 6 []).history =
      [⟨"HashN", "0xSender", "0xabc", 1, 5, "Unknown", "Unknown"⟩] := by
  have hblocks : List.range' (4 + 1) (6 - 4) = [5, 6] := by decide
  refine ⟨⟨rfl, ?_, ?_⟩, ?_, ?_⟩
  · simp only [monitorEthereumPass, if_neg (by decide : ¬ (4 : ℕ) = 0), hblocks]
    simp [processBlock, witnessFetch]
  · simp [monitorEthereumPass]
  · simp [monitorEthereumPass]
  · simp only [monitorEthereumPass, if_neg (by decide : ¬ (4 : ℕ) = 0), hblocks]
    simp only [List.foldl_cons, List.foldl_nil]
    simp [processBlock, c6fetch3, processTx, c6tx, c6monitored, minValueETH]
    norm_num

/-! ### Ledger dedup (C2) -/

/-- Helper: a conditional guarded append is either a no-op or a guarded
append. -/
lemma shape_of_ite {c : Prop} [Decidable c] (st : MonitorSt) (txRecord : TxRecord)
    (hany : ∀ t ∈ st.1, t.hash ≠ txRecord.hash) :
    (if c then (st.1 ++ [txRecord], st.2 ++ [txRecord]) else st) = st ∨
    ∃ r : TxRecord, (∀ t ∈ st.1, t.hash ≠ r.hash) ∧
      (if c then (st.1 ++ [txRecord], st.2 ++ [txRecord]) else st) =
        (st.1 ++ [r], st.2 ++ [r]) := by
  by_cases h : c
  · rw [if_pos h]
    exact Or.inr ⟨txRecord, hany, rfl⟩
  · rw [if_neg h]
    exact Or.inl rfl

/-- Each ledger-writing step either leaves the state unchanged or appends one
record whose hash is guarded absent: shape of `processTx`. -/
lemma processTx_shape (monitored : List String) (userMap : String → Option UserInfo)
    (blockNum : ℕ) (st : MonitorSt) (tx : EthTx) :
    processTx monitored userMap blockNum st tx = st ∨
    ∃ txRecord : TxRecord, (∀ t ∈ st.1, t.hash ≠ txRecord.hash) ∧
      processTx monitored userMap blockNum st tx =
        (st.1 ++ [txRecord], st.2 ++ [txRecord]) := by
  unfold processTx
  split
  · exact Or.inl rfl
  · split
    · split
      · split
        · exact Or.inl rfl
        · next hany => exact Or.inr ⟨_, by simpa using hany, rfl⟩
      · exact Or.inl rfl
    · exact Or.inl rfl

/-- Shape of `solanaProcessSig`. -/
lemma solanaProcessSig_shape (address : String) (userMap : String → Option UserInfo)
    (getTx : String → Option SolTx) (st : MonitorSt) (sigInfo : SigInfo) :
    solanaProcessSig address userMap getTx st sigInfo = st ∨
    ∃ txRecord : TxRecord, (∀ t ∈ st.1, t.hash ≠ txRecord.hash) ∧
      solanaProcessSig address userMap getTx st sigInfo =
        (st.1 ++ [txRecord], st.2 ++ [txRecord]) := by
  unfold solanaProcessSig
  split
  · exact Or.inl rfl
  · next hany =>
    split
    · exact Or.inl rfl
    · split
      · exact Or.inl rfl
      · split
        · exact Or.inl rfl
        · split
          · dsimp only
            exact shape_of_ite st _ (by simpa using hany)
          · exact Or.inl rfl

/-- A guarded append preserves "at most one record with hash `H`". -/
lemma countHash_step_le {st stNext : MonitorSt} {H : String}
    (hshape : stNext = st ∨
      ∃ txRecord : TxRecord, (∀ t ∈ st.1, t.hash ≠ txRecord.hash) ∧
        stNext = (st.1 ++ [txRecord], st.2 ++ [txRecord]))
    (h : countHash st.1 H ≤ 1) : countHash stNext.1 H ≤ 1 := by
  rcases hshape with rfl | ⟨txRecord, hany, rfl⟩
  · exact h
  · simp only [countHash, List.countP_append] at *
    by_cases hH : txRecord.hash = H
    · have hzero : st.1.countP (fun t => decide (t.hash = H)) = 0 := by
        rw [List.countP_eq_zero]
        intro t ht
        simpa using fun he => hany t ht (by rw [he, hH])
      simp [hzero, List.countP_cons, hH]
    · simp [List.countP_cons, hH]
      exact h

/-- The invariant through one block's transaction list. -/
lemma countHash_foldl_processTx (monitored : List String)
    (userMap : String → Option UserInfo) (blockNum : ℕ) (H : String)
    (txs : List EthTx) :
    ∀ st : MonitorSt, countHash st.1 H ≤ 1 →
      countHash ((txs.foldl (processTx monitored userMap blockNum) st)).1 H ≤ 1 := by
  induction txs with
  | nil => intro st h; exact h
  | cons tx txs ih =>
    intro st h
    exact ih _ (countHash_step_le (processTx_shape monitored userMap blockNum st tx) h)

/-- The invariant through one block. -/
lemma countHash_processBlock (monitored : List String)
    (userMap : String → Option UserInfo) (fetch : ℕ → Option (List EthTx))
    (H : String) (st : MonitorSt) (blockNum : ℕ) (h : countHash st.1 H ≤ 1) :
    countHash (processBlock monitored userMap fetch st blockNum).1 H ≤ 1 := by
  unfold processBlock
  split
  · exact h
  · exact countHash_foldl_processTx monitored userMap blockNum H _ st h

/-- The invariant through a block range. -/
lemma countHash_foldl_processBlock (monitored : List String)
    (userMap : String → Option UserInfo) (fetch : ℕ → Option (List EthTx))
    (H : String) (l : List ℕ) :
    ∀ st : MonitorSt, countHash st.1 H ≤ 1 →
      countHash ((l.foldl (processBlock monitored userMap fetch) st)).1 H ≤ 1 := by
  induction l with
  | nil => intro st h; exact h
  | cons n l ih =>
    intro st h
    exact ih _ (countHash_processBlock monitored userMap fetch H st n h)

/-- **C2.**  Per-hash idempotency of the ledger-writing path.  (i) An
account-chain pass preserves "at most one history record with hash `H`";
(ii) a candidate transaction whose hash already appears in the history is
discarded as a complete no-op (no record pushed, no Firebase save, hence no
balance update); (iii) the slot-chain per-address signature loop preserves
the same bound; (iv) a signature already in the history is skipped as a
no-op.  Presenting a deposit with hash `H` any number of times on either
path therefore leaves at most one record with hash `H`. -/
theorem ledger_write_idempotent_per_hash
    (monitored : List String) (userMap : String → Option UserInfo)
    (fetch : ℕ → Option (List EthTx)) (latest current : ℕ)
    (history : List TxRecord) (H : String)
    (hinv : countHash history H ≤ 1) :
    countHash (monitorEthereumPass monitored userMap fetch latest current history).history
        H ≤ 1 ∧
    (∀ (st : MonitorSt) (blockNum : ℕ) (tx : EthTx),
      st.1.any (fun t => t.hash = tx.hash) = true →
      processTx monitored userMap blockNum st tx = st) ∧
    (∀ (address : String) (getTx : String → Option SolTx) (sigs : List SigInfo)
        (st : MonitorSt), countHash st.1 H ≤ 1 →
      countHash (monitorSolanaAddress address userMap getTx sigs st).1 H ≤ 1) ∧
    (∀ (address : String) (getTx : String → Option SolTx) (st : MonitorSt)
        (sigInfo : SigInfo), st.1.any (fun t => t.hash = sigInfo.signature) = true →
      solanaProcessSig address userMap getTx st sigInfo = st) := by
  refine ⟨?_, ?_, ?_, ?_⟩
  · unfold monitorEthereumPass
    split
    · exact hinv
    · exact countHash_foldl_processBlock monitored userMap fetch H _ (history, []) hinv
  · intro st blockNum tx hany
    unfold processTx
    split
    · rfl
    · split
      · split
        · simp [hany]
        · rfl
      · rfl
  · intro address getTx sigs
    induction sigs with
    | nil => intro st h; exact h
    | cons s sigs ih =>
      intro st h
      exact ih _ (countHash_step_le (solanaProcessSig_shape address userMap getTx st s) h)
  · intro address getTx st sigInfo hany
    unfold solanaProcessSig
    rw [if_pos hany]

/-- Witness for C2: empty history has at most one record with hash `"h0"`,
and a trivial pass keeps it so. -/
theorem ledger_write_idempotent_per_hash_witness :
    (countHash [] "h0" ≤ 1) ∧
    countHash (monitorEthereumPass [] (fun _ => none) (fun _ => none) 1 1 []).history
      "h0" ≤ 1 :=
  ⟨by decide,
    (ledger_write_idempotent_per_hash [] (fun _ => none) (fun _ => none) 1 1 [] "h0"
      (by decide)).1⟩


/-! ### Theorems for C7, C4, C8, C9 -/

/-- **C7 (code bug).**  The counterparty inference of
`monitorSolanaTransactions` never finds the account whose balance decreased:
its `findIndex` callback indexes `preBalances`/`postBalances` by the account
key string instead of the account's position, so the comparison is
`undefined < undefined` (false) for every base58 key and `fromIndex` is
always `-1`.  On a transaction where account `"SenderA"` demonstrably lost
2 SOL and the monitored address `"RecvB"` gained 2 SOL, the recorded
counterparty is `"Unknown"`, while the first account whose balance decreased
(the spec's words, `specCounterpartyIndex`) is account 0 = `"SenderA"`. -/
theorem solana_counterparty_recorded_as_unknown :
    (solanaProcessSig "RecvB" (fun _ => none) (fun _ => some c7tx) ([], []) c7sig).1 =
      [⟨"Sig1", "Unknown", "RecvB", 2, 7, "Unknown", "Solana"⟩] ∧
    solanaFromIndex ["SenderA", "RecvB"] [5000000000, 0] [3000000000, 2000000000] =
      none ∧
    specCounterpartyIndex [5000000000, 0] [3000000000, 2000000000] = some 0 ∧
    (["SenderA", "RecvB"].getD 0 "Unknown" = "SenderA" ∧ "SenderA" ≠ "Unknown") := by
  refine ⟨?_, by decide, by decide, by decide, by decide⟩
  simp [solanaProcessSig, c7tx, c7sig, solanaFromAddress, solanaFromIndex, jsArrayGet,
    jsUndefLt, lamportsPerSol, minValueSOL, List.findIdx?]
  norm_num

/-- **C4 counterexample.**  A post-state in which the deposit record has been
persisted but the user's balance has not been advanced is reachable: stop
after the `processedDeposits.add` await and before the balance update. -/
theorem deposit_record_without_balance_update_reachable :
    SaveOutcome [] 0 c4rec [c4rec] 0 ∧ c4rec ∈ [c4rec] ∧ (0 : ℚ) ≠ 0 + c4rec.value :=
  ⟨SaveOutcome.stopAfterAdd, List.mem_singleton.mpr rfl, by norm_num [c4rec]⟩

/-- **C4 amended.**  The balance update and the deposit-record append are two
separate writes with no transaction, and a failure part-way through one
candidate can leave either write applied without the other.  On the
transaction path (`saveDepositToFirebase`) the record is appended first and a
failed append aborts the balance update, so whenever the balance was advanced
the record was persisted; on the balance-diff path
(`updateUserBalances`/`trackBalanceIncreaseAsDeposit`) the record append's
failure is swallowed by that function's own catch and the balance write still
runs, so the post-states "balance advanced without a record" and "record
persisted without the balance" are both reachable there. -/
theorem ledger_write_not_atomic_on_either_path
    (ledger : List TxRecord) (balance : ℚ) (c : TxRecord)
    (ledgerNext : List TxRecord) (balanceNext : ℚ)
    (dledger : List DepositRecord) (dbalance : ℚ) (d : DepositRecord)
    (h : SaveOutcome ledger balance c ledgerNext balanceNext)
    (hchanged : balanceNext ≠ balance) :
    ledgerNext = ledger ++ [c] ∧
    SnapshotSaveOutcome dledger dbalance d dledger d.newBalance ∧
    SnapshotSaveOutcome dledger dbalance d (dledger ++ [d]) dbalance := by
  refine ⟨?_, SnapshotSaveOutcome.addFailedUpdateRan, SnapshotSaveOutcome.stopAfterAdd⟩
  cases h with
  | stopBeforeAdd => exact absurd rfl hchanged
  | stopAfterAdd => exact absurd rfl hchanged
  | completed => rfl

/-- Witness for the amended C4: a completed transaction-path outcome with
amount `1`, and the concrete balance-diff candidate with stored `0`,
fetched `1`. -/
theorem ledger_write_not_atomic_on_either_path_witness :
    ([c4rec] : List TxRecord) = [] ++ [c4rec] ∧
    SnapshotSaveOutcome [] 0 c4drec [] c4drec.newBalance ∧
    SnapshotSaveOutcome [] 0 c4drec ([] ++ [c4drec]) 0 :=
  ledger_write_not_atomic_on_either_path [] 0 c4rec ([] ++ [c4rec]) (0 + c4rec.value)
    [] 0 c4drec SaveOutcome.completed (by norm_num [c4rec])

/-- **C8 counterexample.**  A successful liveness probe does not reset the
rotation index: starting from rotation index `1` with three consecutive
failures, a successful probe resets the failure count but leaves the index at
`1 ≠ 0`. -/
theorem successful_probe_keeps_rotation_index :
    (initializeWeb3 true ⟨1, 3, false⟩).1.retryCount = 0 ∧
    (initializeWeb3 true ⟨1, 3, false⟩).1.currentRpcUrlIndex = 1 ∧ (1 : ℕ) ≠ 0 := by
  refine ⟨rfl, rfl, by decide⟩

/-- **C8 amended.**  After any successful probe the consecutive failure count
is reset to zero and the connection is marked live; the rotation index is
left unchanged at the endpoint that answered. -/
theorem successful_probe_resets_only_failure_count (s : RpcState) :
    (initializeWeb3 true s).1.retryCount = 0 ∧
    (initializeWeb3 true s).1.isConnected = true ∧
    (initializeWeb3 true s).1.currentRpcUrlIndex = s.currentRpcUrlIndex :=
  ⟨rfl, rfl, rfl⟩

/-- **C9.**  In a snapshot pass, an address whose fetched native balance is
below `minReportBalance = 0.0001` gets no token (non-native) balance fetches:
the updater-call list degenerates to the native call alone — independently of
whatever the token RPC would have returned — on the account-chain branches
and on the Solana branch alike, and hence the deposit records the snapshot
engine can produce for that address are exactly those of the native call. -/
theorem low_native_balance_skips_token_scan (nativeSymbol userId chain : String)
    (nativeBalance : ℚ) (tokenFetch splFetch currentBalances : List (String × ℚ))
    (h : nativeBalance < minReportBalance) :
    snapshotCallsAcct nativeSymbol nativeBalance tokenFetch =
      (if 0 < nativeBalance then [(nativeSymbol, nativeBalance)] else []) ∧
    snapshotCallsSol nativeBalance splFetch =
      (if 0 < nativeBalance then [("SOL", nativeBalance)] else []) ∧
    snapshotDeposits userId chain currentBalances
        (snapshotCallsAcct nativeSymbol nativeBalance tokenFetch) =
      snapshotDeposits userId chain currentBalances
        (if 0 < nativeBalance then [(nativeSymbol, nativeBalance)] else []) := by
  have hnot : ¬ minReportBalance ≤ nativeBalance := not_le.mpr h
  refine ⟨?_, ?_, ?_⟩ <;> simp [snapshotCallsAcct, snapshotCallsSol, hnot]

/-- Witness for C9: native balance `0.00005`, a nonempty token-fetch oracle;
only the native call remains. -/
theorem low_native_balance_skips_token_scan_witness :
    ((1/20000 : ℚ) < minReportBalance) ∧
    snapshotCallsAcct "ETH" (1/20000) [("USDT", 100)] =
      (if (0:ℚ) < 1/20000 then [("ETH", (1/20000 : ℚ))] else []) :=
  ⟨by norm_num [minReportBalance],
    (low_native_balance_skips_token_scan "ETH" "u1" "Ethereum" (1/20000)
      [("USDT", 100)] [] [] (by norm_num [minReportBalance])).1⟩

end Deposcan
